import Mathlib

/-!
Verification of the mcproto wire codec against its specification.

The Python code is shallowly embedded: bytes are `List Nat` (each element a
byte value), serializers are functions to `List Nat` (or `Option (List Nat)`
when the Python code can raise while writing), and deserializers are functions
`List Nat → Option (α × List Nat)` returning the parsed value and the
remaining bytes (`none` models a raised `IOError`/`ValueError`).

The repository sources for the packet classes are embedded directly from
`mcproto/packets/...` and `mcproto/types/bitset.py`.  The byte-buffer layer
(`mcproto/buffer.py`, `mcproto/protocol/base_io.py`), the UUID type and the
NBT module are not part of the provided sources, so those primitives are
modelled from the specification (sections 3, 4.1-4.3): each such definition
carries a doc comment saying so.
-/

namespace Mcproto

/-- A byte string: each element is one byte (0-255 for real data). -/
abbrev Bytes := List Nat

/-- Modelled from the spec (section 3): two's complement of a signed integer in
`w` bits, as the unsigned wire value. -/
def toTwos (w : Nat) (v : Int) : Nat := (v % ((2 : Int) ^ w)).toNat

/-- Modelled from the spec (section 3): signed interpretation of a `w`-bit
unsigned wire value (sign-extension). -/
def toSigned (w : Nat) (u : Nat) : Int :=
  if u < 2 ^ (w - 1) then (u : Int) else (u : Int) - (2 : Int) ^ w

/-- Modelled from the spec (section 3): big-endian bytes of an unsigned value,
fixed width `n` bytes (most significant first). -/
def natToBytesBE : Nat → Nat → Bytes
  | 0, _ => []
  | n + 1, v => natToBytesBE n (v / 256) ++ [v % 256]

/-- Modelled from the spec (section 3): big-endian value of a byte string. -/
def bytesToNatBE (bs : Bytes) : Nat := bs.foldl (fun acc b => acc * 256 + b) 0

/-- Read one byte; fails when the buffer is exhausted (`Truncated`). -/
def readByte : Bytes → Option (Nat × Bytes)
  | [] => none
  | b :: bs => some (b, bs)

/-- Modelled from the spec (section 4.1): `read(n)` — read exactly `n` bytes,
failing with `Truncated` when fewer remain (no partial reads). -/
def readN (n : Nat) (bs : Bytes) : Option (Bytes × Bytes) :=
  if n ≤ bs.length then some (bs.take n, bs.drop n) else none

/-- Modelled from the spec (section 4.2): LEB128-style varint encoder, low 7
bits first, MSB continuation.  The fuel bound of 5 bytes is never reached for
values below `2 ^ 35`; 32-bit values need at most 5 bytes. -/
def writeVarintAux : Nat → Nat → Bytes
  | 0, _ => []
  | fuel + 1, u => if u < 128 then [u] else (u % 128 + 128) :: writeVarintAux fuel (u / 128)

/-- Varint encoder entry point: operates on the unsigned 32-bit wire value
(signed Python ints correspond through two's complement). -/
def writeVarint (u : Nat) : Bytes := writeVarintAux 5 u

/-- Modelled from the spec (section 4.2): varint decoder, failing (`Malformed`)
when more than 5 bytes carry a continuation bit or the buffer ends early. -/
def readVarintAux : Nat → Bytes → Nat → Nat → Option (Nat × Bytes)
  | 0, _, _, _ => none
  | _ + 1, [], _, _ => none
  | fuel + 1, b :: bs, shift, acc =>
    if b < 128 then some (acc + b * 2 ^ shift, bs)
    else readVarintAux fuel bs (shift + 7) (acc + b % 128 * 2 ^ shift)

/-- Varint decoder entry point (unsigned 32-bit wire value). -/
def readVarint (bs : Bytes) : Option (Nat × Bytes) := readVarintAux 5 bs 0 0

/-- Modelled from the spec (sections 3, 4.1): `write_utf` — varint byte length
then the UTF-8 bytes; lengths above 32767 raise.  Strings are carried as their
UTF-8 byte sequences. -/
def write_utf (s : Bytes) : Option Bytes :=
  if s.length > 32767 then none else some (writeVarint s.length ++ s)

/-- Modelled from the spec (sections 3, 4.1): `read_utf` — varint length, then
that many bytes; over-limit lengths fail. -/
def read_utf (bs : Bytes) : Option (Bytes × Bytes) := do
  let (n, r) ← readVarint bs
  if n > 32767 then none else readN n r

/-- Modelled from the spec (section 3): `write_optional` — a boolean byte,
followed by the payload iff the boolean is true. -/
def write_optional (f : α → Bytes) : Option α → Bytes
  | none => [0]
  | some x => 1 :: f x

/-- Modelled from the spec (section 3): `read_optional` — read a boolean byte,
then the payload iff it is nonzero. -/
def read_optional (f : Bytes → Option (α × Bytes)) (bs : Bytes) :
    Option (Option α × Bytes) := do
  let (b, r) ← readByte bs
  if b ≠ 0 then
    let (x, r') ← f r
    some (some x, r')
  else
    some (none, r)

/-- Modelled from the spec (section 3): a UUID is 128 bits big-endian —
carried as its 16 wire bytes. -/
abbrev UUID := Bytes

/-- Modelled from the spec (section 3): `UUID.serialize` emits the 16 bytes. -/
def UUID.serializeBytes (u : UUID) : Bytes := u

/-- Modelled from the spec (section 3): `UUID.deserialize` reads 16 bytes. -/
def UUID.deserializeBytes (bs : Bytes) : Option (UUID × Bytes) := readN 16 bs

/- ## Round-trip facts about the primitives -/

theorem writeVarintAux_spec (fw : Nat) :
    ∀ (fr u shift acc : Nat) (rest : Bytes), u < 128 ^ fw → 1 ≤ fw → fw ≤ fr →
      readVarintAux fr (writeVarintAux fw u ++ rest) shift acc =
        some (acc + u * 2 ^ shift, rest) := by
  induction fw with
  | zero => intro _ _ _ _ _ _ h; omega
  | succ fw ih =>
    intro fr u shift acc rest hu _ hfr
    obtain ⟨fr', rfl⟩ : ∃ fr', fr = fr' + 1 := ⟨fr - 1, by omega⟩
    by_cases hsmall : u < 128
    · simp only [writeVarintAux, if_pos hsmall, List.cons_append, List.nil_append,
        readVarintAux, if_pos hsmall]
    · have hfw : 1 ≤ fw := by
        by_contra h
        have : fw = 0 := by omega
        subst this
        simp only [pow_succ, pow_zero, one_mul] at hu
        omega
      have hmod : u % 128 + 128 ≥ 128 := by omega
      simp only [writeVarintAux, if_neg hsmall, List.cons_append, readVarintAux,
        if_neg (by omega : ¬(u % 128 + 128 < 128))]
      have hdiv : u / 128 < 128 ^ fw := by
        rw [Nat.div_lt_iff_lt_mul (by norm_num)]
        calc u < 128 ^ (fw + 1) := hu
          _ = 128 ^ fw * 128 := by ring
      have := ih fr' (u / 128) (shift + 7) (acc + (u % 128 + 128) % 128 * 2 ^ shift) rest
        hdiv hfw (by omega)
      rw [this]
      congr 2
      have h128 : (u % 128 + 128) % 128 = u % 128 := by omega
      have h7 : (2 : Nat) ^ 7 = 128 := by norm_num
      rw [h128, pow_add, h7]
      have hu' : u % 128 + 128 * (u / 128) = u := Nat.mod_add_div u 128
      calc acc + u % 128 * 2 ^ shift + u / 128 * (2 ^ shift * 128)
          = acc + (u % 128 + 128 * (u / 128)) * 2 ^ shift := by ring
        _ = acc + u * 2 ^ shift := by rw [hu']

/-- Varint round-trip: decoding an encoded 32-bit value returns the value and
leaves the rest of the buffer untouched. -/
theorem readVarint_writeVarint (u : Nat) (rest : Bytes) (h : u < 2 ^ 32) :
    readVarint (writeVarint u ++ rest) = some (u, rest) := by
  have h5 : u < 128 ^ 5 := by norm_num at h ⊢; omega
  have := writeVarintAux_spec 5 5 u 0 0 rest h5 (by norm_num) (le_refl 5)
  simpa [readVarint, writeVarint] using this

theorem readN_append (n : Nat) (xs rest : Bytes) (h : xs.length = n) :
    readN n (xs ++ rest) = some (xs, rest) := by
  subst h
  simp [readN, List.take_left, List.drop_left]

theorem read_utf_write_utf (s : Bytes) (rest out : Bytes)
    (h : write_utf s = some out) :
    read_utf (out ++ rest) = some (s, rest) := by
  unfold write_utf at h
  split at h
  · exact absurd h (by simp)
  · next hlen =>
    have : out = writeVarint s.length ++ s := by
      injection h with h'; exact h'.symm
    subst this
    unfold read_utf
    rw [List.append_assoc,
      readVarint_writeVarint s.length (s ++ rest) (by omega)]
    simp only [Option.bind_eq_bind, Option.some_bind]
    rw [if_neg (by omega)]
    exact readN_append _ _ _ rfl

/- ## NBT tree (modelled from the spec, sections 3 and 4.3: `mcproto/types/nbt.py`
is not among the provided sources, only its tests are). -/

/-- Modelled from the spec (section 3): the NBT tagged union with its 13 kinds.
Numbers carry their signed value; Float/Double carry the raw IEEE-754 bit
pattern (the codec never does float arithmetic); String carries UTF-8 bytes;
Compound carries named children in insertion order. -/
inductive NBTag where
  | NBTEnd : NBTag
  | NBTByte (v : Int) : NBTag
  | NBTShort (v : Int) : NBTag
  | NBTInt (v : Int) : NBTag
  | NBTLong (v : Int) : NBTag
  | NBTFloat (bits : Nat) : NBTag
  | NBTDouble (bits : Nat) : NBTag
  | NBTByteArray (vs : List Int) : NBTag
  | NBTString (s : Bytes) : NBTag
  | NBTList (elemKind : Nat) (elems : List NBTag) : NBTag
  | NBTCompound (children : List (Bytes × NBTag)) : NBTag
  | NBTIntArray (vs : List Int) : NBTag
  | NBTLongArray (vs : List Int) : NBTag

/-- Modelled from the spec (section 3): the 1-byte kind discriminator. -/
def NBTag.kind : NBTag → Nat
  | .NBTEnd => 0
  | .NBTByte _ => 1
  | .NBTShort _ => 2
  | .NBTInt _ => 3
  | .NBTLong _ => 4
  | .NBTFloat _ => 5
  | .NBTDouble _ => 6
  | .NBTByteArray _ => 7
  | .NBTString _ => 8
  | .NBTList _ _ => 9
  | .NBTCompound _ => 10
  | .NBTIntArray _ => 11
  | .NBTLongArray _ => 12

/-- Modelled from the spec (section 3): big-endian u16, used for NBT string
length prefixes (explicitly not a varint). -/
def writeU16 (n : Nat) : Bytes := [n / 256 % 256, n % 256]

/-- Read a big-endian u16. -/
def readU16 : Bytes → Option (Nat × Bytes)
  | b1 :: b2 :: bs => some (b1 * 256 + b2, bs)
  | _ => none

mutual

/-- Modelled from the spec (sections 3, 4.3): payload-only serialization of a
tag (the framing shape used for List elements). -/
def NBTag.writePayload : NBTag → Bytes
  | .NBTEnd => []
  | .NBTByte v => [toTwos 8 v]
  | .NBTShort v => natToBytesBE 2 (toTwos 16 v)
  | .NBTInt v => natToBytesBE 4 (toTwos 32 v)
  | .NBTLong v => natToBytesBE 8 (toTwos 64 v)
  | .NBTFloat bits => natToBytesBE 4 bits
  | .NBTDouble bits => natToBytesBE 8 bits
  | .NBTByteArray vs => natToBytesBE 4 vs.length ++ vs.map (toTwos 8)
  | .NBTString s => writeU16 s.length ++ s
  | .NBTList k elems => [k] ++ natToBytesBE 4 elems.length ++ NBTag.writeElems elems
  | .NBTCompound children => NBTag.writeChildren children ++ [0]
  | .NBTIntArray vs => natToBytesBE 4 vs.length ++ vs.flatMap (fun v => natToBytesBE 4 (toTwos 32 v))
  | .NBTLongArray vs => natToBytesBE 4 vs.length ++ vs.flatMap (fun v => natToBytesBE 8 (toTwos 64 v))

/-- Payloads of the elements of a homogeneous List tag (no per-element header). -/
def NBTag.writeElems : List NBTag → Bytes
  | [] => []
  | t :: ts => t.writePayload ++ NBTag.writeElems ts

/-- Named children of a Compound: each with the full `kind + name + payload`
header, in insertion order. -/
def NBTag.writeChildren : List (Bytes × NBTag) → Bytes
  | [] => []
  | (name, t) :: rest =>
    [t.kind] ++ writeU16 name.length ++ name ++ t.writePayload ++ NBTag.writeChildren rest

end

/-- Modelled from the spec (section 3): the `with_type, with_name` framing —
1-byte kind, u16-prefixed UTF name, then the payload. -/
def NBTag.writeNamed (name : Bytes) (t : NBTag) : Bytes :=
  [t.kind] ++ writeU16 name.length ++ name ++ t.writePayload

/-- Modelled from the spec (section 3): the `with_type` (no name) framing,
used for network NBT roots such as text components. -/
def NBTag.writeUnnamed (t : NBTag) : Bytes := [t.kind] ++ t.writePayload

/-- Read a big-endian i32 (array and list counts). -/
def readI32 (bs : Bytes) : Option (Int × Bytes) := do
  let (c, r) ← readN 4 bs
  some (toSigned 32 (bytesToNatBE c), r)

/-- Read `count` fixed-width big-endian signed integers of `w` bytes each. -/
def readFixedInts (w : Nat) : Nat → Bytes → Option (List Int × Bytes)
  | 0, bs => some ([], bs)
  | n + 1, bs => do
    let (c, r) ← readN w bs
    let (vs, r') ← readFixedInts w n r
    some (toSigned (8 * w) (bytesToNatBE c) :: vs, r')

mutual

/-- Modelled from the spec (section 4.3): payload parser for a given kind.
`fuel` bounds recursion depth; all entry points pass enough fuel for any
buffer they can be given, and running out of fuel fails the parse like any
other `Malformed` input.  Negative counts and unknown kind bytes fail. -/
def NBTag.readPayload : Nat → Nat → Bytes → Option (NBTag × Bytes)
  | 0, _, _ => none
  | _ + 1, 0, bs => some (.NBTEnd, bs)
  | _ + 1, 1, bs => do
    let (b, r) ← readByte bs
    some (.NBTByte (toSigned 8 b), r)
  | _ + 1, 2, bs => do
    let (c, r) ← readN 2 bs
    some (.NBTShort (toSigned 16 (bytesToNatBE c)), r)
  | _ + 1, 3, bs => do
    let (v, r) ← readI32 bs
    some (.NBTInt v, r)
  | _ + 1, 4, bs => do
    let (c, r) ← readN 8 bs
    some (.NBTLong (toSigned 64 (bytesToNatBE c)), r)
  | _ + 1, 5, bs => do
    let (c, r) ← readN 4 bs
    some (.NBTFloat (bytesToNatBE c), r)
  | _ + 1, 6, bs => do
    let (c, r) ← readN 8 bs
    some (.NBTDouble (bytesToNatBE c), r)
  | _ + 1, 7, bs => do
    let (n, r) ← readI32 bs
    if n < 0 then none
    else do
      let (c, r') ← readN n.toNat r
      some (.NBTByteArray (c.map (toSigned 8)), r')
  | _ + 1, 8, bs => do
    let (len, r) ← readU16 bs
    let (s, r') ← readN len r
    some (.NBTString s, r')
  | fuel + 1, 9, bs => do
    let (k, r) ← readByte bs
    let (n, r') ← readI32 r
    if n < 0 then none
    else do
      let (es, r'') ← NBTag.readElems fuel k n.toNat r'
      some (.NBTList k es, r'')
  | fuel + 1, 10, bs => do
    let (cs, r) ← NBTag.readChildren fuel bs
    some (.NBTCompound cs, r)
  | _ + 1, 11, bs => do
    let (n, r) ← readI32 bs
    if n < 0 then none
    else do
      let (vs, r') ← readFixedInts 4 n.toNat r
      some (.NBTIntArray vs, r')
  | _ + 1, 12, bs => do
    let (n, r) ← readI32 bs
    if n < 0 then none
    else do
      let (vs, r') ← readFixedInts 8 n.toNat r
      some (.NBTLongArray vs, r')
  | _ + 1, _, _ => none

/-- Read `count` List elements (payload only) of the given kind. -/
def NBTag.readElems : Nat → Nat → Nat → Bytes → Option (List NBTag × Bytes)
  | 0, _, _, _ => none
  | _ + 1, _, 0, bs => some ([], bs)
  | fuel + 1, k, n + 1, bs => do
    let (t, r) ← NBTag.readPayload fuel k bs
    let (ts, r') ← NBTag.readElems fuel k n r
    some (t :: ts, r')

/-- Read Compound children until an End kind byte. -/
def NBTag.readChildren : Nat → Bytes → Option (List (Bytes × NBTag) × Bytes)
  | 0, _ => none
  | fuel + 1, bs => do
    let (k, r) ← readByte bs
    if k = 0 then some ([], r)
    else do
      let (nlen, r₁) ← readU16 r
      let (name, r₂) ← readN nlen r₁
      let (t, r₃) ← NBTag.readPayload fuel k r₂
      let (rest, r₄) ← NBTag.readChildren fuel r₃
      some ((name, t) :: rest, r₄)

end

/-- Modelled from the spec (section 3): read a tag in the `with_type,
with_name` framing (the framing of `CompoundNBT.deserialize`). -/
def NBTag.readNamed (bs : Bytes) : Option ((Bytes × NBTag) × Bytes) := do
  let (k, r) ← readByte bs
  let (nlen, r₁) ← readU16 r
  let (name, r₂) ← readN nlen r₁
  let (t, r₃) ← NBTag.readPayload bs.length k r₂
  some ((name, t), r₃)

/-- Modelled from the spec (section 3): read a tag in the `with_type` (no
name) framing — `NBTag.deserialize(buf, with_name=False)`. -/
def NBTag.readUnnamed (bs : Bytes) : Option (NBTag × Bytes) := do
  let (k, r) ← readByte bs
  NBTag.readPayload bs.length k r

/-- Modelled from the spec (section 3): the object-projection value universe,
restricted to the literal kinds the projection maps without schema hints
(strings and compound dictionaries). -/
inductive NBTObj where
  | str (s : Bytes) : NBTObj
  | dict (entries : List (Bytes × NBTObj)) : NBTObj

mutual

/-- Modelled from the spec (sections 3, 4.3): `to_object` on a payload.
Fails on duplicate Compound names and on tag kinds outside the modelled
string/compound fragment. -/
def NBTag.toObjPayload : NBTag → Option NBTObj
  | .NBTString s => some (.str s)
  | .NBTCompound children =>
    if (children.map Prod.fst).Nodup then
      match NBTag.toObjEntries children with
      | some entries => some (.dict entries)
      | none => none
    else none
  | _ => none

/-- Project each named child of a Compound. -/
def NBTag.toObjEntries : List (Bytes × NBTag) → Option (List (Bytes × NBTObj))
  | [] => some []
  | (name, t) :: rest =>
    match t.toObjPayload, NBTag.toObjEntries rest with
    | some o, some os => some ((name, o) :: os)
    | _, _ => none

end

/-- Modelled from the spec (section 3): `to_object` on a named tag — a named
root projects to a one-entry dictionary carrying its name. -/
def NBTag.to_object (name : Bytes) (t : NBTag) : Option NBTObj := do
  let o ← t.toObjPayload
  if name = [] then some o else some (.dict [(name, o)])

mutual

/-- Modelled from the spec (sections 3, 4.3): schema-free `from_object` on the
string/compound fragment; duplicate dictionary keys are rejected. -/
def NBTag.fromObjPayload : NBTObj → Option NBTag
  | .str s => some (.NBTString s)
  | .dict entries =>
    if (entries.map Prod.fst).Nodup then
      match NBTag.fromObjEntries entries with
      | some cs => some (.NBTCompound cs)
      | none => none
    else none

/-- Build the named children of a Compound from dictionary entries. -/
def NBTag.fromObjEntries : List (Bytes × NBTObj) → Option (List (Bytes × NBTag))
  | [] => some []
  | (name, o) :: rest =>
    match NBTag.fromObjPayload o, NBTag.fromObjEntries rest with
    | some t, some ts => some ((name, t) :: ts)
    | _, _ => none

end

/-- Modelled from the spec (section 3) and the repository's NBT tests:
`NBTag.from_object` — a one-entry dictionary whose value is itself a
dictionary becomes a named compound root carrying that entry's key as the
root name; anything else becomes an unnamed root. -/
def NBTag.from_object (o : NBTObj) : Option (Bytes × NBTag) :=
  match o with
  | .dict [(k, .dict entries)] => do
    let t ← NBTag.fromObjPayload (.dict entries)
    some (k, t)
  | _ => do
    let t ← NBTag.fromObjPayload o
    some (([] : Bytes), t)

/- ## Concrete NBT example data (spec E2 / `test_nbt_helloworld`) -/

/-- UTF-8 bytes of `"hello world"`. -/
def helloName : Bytes := [104, 101, 108, 108, 111, 32, 119, 111, 114, 108, 100]

/-- UTF-8 bytes of `"name"`. -/
def nameKey : Bytes := [110, 97, 109, 101]

/-- UTF-8 bytes of `"Bananrama"`. -/
def bananrama : Bytes := [66, 97, 110, 97, 110, 114, 97, 109, 97]

/-- The tag tree of the spec's E2 example: a compound holding one string. -/
def helloTag : NBTag := .NBTCompound [(nameKey, .NBTString bananrama)]

/-- The object projection of the E2 example:
`{"hello world": {"name": "Bananrama"}}`. -/
def helloObj : NBTObj := .dict [(helloName, .dict [(nameKey, .str bananrama)])]

/-- The wire bytes of the E2 example:
`0A 00 0B "hello world" 08 00 04 "name" 00 09 "Bananrama" 00`. -/
def helloBytes : Bytes :=
  [10, 0, 11] ++ helloName ++ [8, 0, 4] ++ nameKey ++ [0, 9] ++ bananrama ++ [0]

/-- From `mcproto/types/chat.py` (`TextComponent.serialize_to`): the chat
component is emitted as an unnamed NBT tag (`from_object` of its dict form);
the component value is carried here as that NBT form directly. -/
def TextComponent.serializeBytes (t : NBTag) : Bytes := NBTag.writeUnnamed t

/-- From `mcproto/types/chat.py` (`TextComponent.deserialize`): read an
unnamed NBT tag.  The schema re-validation of the dict layer is not modelled;
it can only turn successful parses into failures. -/
def TextComponent.deserializeBytes (bs : Bytes) : Option (NBTag × Bytes) :=
  NBTag.readUnnamed bs

/- ## LoginStart (`mcproto/packets/login/login.py`) -/

/-- From `mcproto/packets/login/login.py` (`LoginStart`): username (UTF) and
optional UUID.  The username is carried as its UTF-8 bytes. -/
structure LoginStart where
  username : Bytes
  uuid : Option UUID
deriving DecidableEq, Repr

/-- From `LoginStart.serialize`: `write_utf(username)` then
`write_optional(uuid, ...)`; `none` models the `ValueError` of an over-long
username. -/
def LoginStart.serializeBytes (p : LoginStart) : Option Bytes := do
  let u ← write_utf p.username
  some (u ++ write_optional UUID.serializeBytes p.uuid)

/-- From `LoginStart.deserialize`: `read_utf` then
`read_optional(UUID.deserialize)`. -/
def LoginStart.deserializeBytes (bs : Bytes) : Option (LoginStart × Bytes) := do
  let (username, r) ← read_utf bs
  let (uuid, r') ← read_optional UUID.deserializeBytes r
  some (⟨username, uuid⟩, r')

/- ## DeleteMessage (`mcproto/packets/play/play.py`) -/

/-- From `mcproto/packets/play/play.py` (`DeleteMessage`): a varint message id
(carried as its unsigned 32-bit wire value) and an optional raw 256-byte
signature. -/
structure DeleteMessage where
  message_id : Nat
  signature : Option Bytes
deriving DecidableEq, Repr

/-- From `DeleteMessage.serialize_to`: write the varint id, then the raw
signature bytes whenever the signature is present. -/
def DeleteMessage.serializeBytes (p : DeleteMessage) : Bytes :=
  writeVarint p.message_id ++ (match p.signature with | some s => s | none => [])

/-- From `DeleteMessage._deserialize`: read the varint id; read a raw 256-byte
signature only when the id is zero. -/
def DeleteMessage.deserializeBytes (bs : Bytes) : Option (DeleteMessage × Bytes) := do
  let (mid, r) ← readVarint bs
  if mid = 0 then
    let (sig, r') ← readN 256 r
    some (⟨mid, some sig⟩, r')
  else
    some (⟨mid, none⟩, r)

/-- `DeleteMessage` defines no `validate` override, so it inherits the
default no-op validation: every constructible value is valid. -/
def DeleteMessage.validate (_ : DeleteMessage) : Except String Unit := .ok ()

/-- UTF-8 bytes of `"Notch"`. -/
def notchBytes : Bytes := [78, 111, 116, 99, 104]

/-- The 16 bytes of uuid `00112233-4455-6677-8899-AABBCCDDEEFF`. -/
def uuid16 : UUID :=
  [0x00, 0x11, 0x22, 0x33, 0x44, 0x55, 0x66, 0x77,
   0x88, 0x99, 0xAA, 0xBB, 0xCC, 0xDD, 0xEE, 0xFF]

theorem readN_exact (n : Nat) (xs : Bytes) (h : xs.length = n) :
    readN n xs = some (xs, []) := by
  subst h
  simp [readN, List.take_length, List.drop_length]

/-- C7: deserializing `0A 00 0B "hello world" 08 00 04 "name" 00 09
"Bananrama" 00` as a named compound NBT tag consumes the whole buffer and
yields the tree whose object projection is
`{"hello world": {"name": "Bananrama"}}`; building a tag from that object
returns the same named tree, and serializing it reproduces exactly those
bytes. -/
theorem C7_nbt_helloworld :
    NBTag.readNamed helloBytes = some ((helloName, helloTag), [])
    ∧ NBTag.to_object helloName helloTag = some helloObj
    ∧ NBTag.from_object helloObj = some (helloName, helloTag)
    ∧ NBTag.writeNamed helloName helloTag = helloBytes :=
  ⟨rfl, rfl, rfl, rfl⟩

/-- C3 counterexample: serializing `LoginStart("Notch", 00112233-...)`
produces a boolean presence byte between the username and the uuid, so the
output differs from the claimed `varint(5) || "Notch" || uuid` bytes; and
deserializing the claimed bytes yields a packet with `uuid = None` (the `00`
lead byte of the uuid is taken as the absence flag), not the original
packet. -/
theorem C3_login_start_cex :
    LoginStart.serializeBytes ⟨notchBytes, some uuid16⟩
        = some ([5] ++ notchBytes ++ [1] ++ uuid16)
    ∧ ([5] ++ notchBytes ++ [1] ++ uuid16 : Bytes) ≠ [5] ++ notchBytes ++ uuid16
    ∧ LoginStart.deserializeBytes ([5] ++ notchBytes ++ uuid16)
        = some (⟨notchBytes, none⟩,
            [0x11, 0x22, 0x33, 0x44, 0x55, 0x66, 0x77,
             0x88, 0x99, 0xAA, 0xBB, 0xCC, 0xDD, 0xEE, 0xFF])
    ∧ (⟨notchBytes, none⟩ : LoginStart) ≠ ⟨notchBytes, some uuid16⟩ :=
  ⟨rfl, by decide, rfl, by decide⟩

/-- C3 (amended): serializing `LoginStart("Notch", 00112233-...)` produces
exactly `varint(5) || "Notch" || 0x01 || uuid bytes` — the `0x01` being the
optional-uuid presence byte — and deserializing exactly those bytes yields
the packet back with nothing left over. -/
theorem C3_login_start_bytes :
    LoginStart.serializeBytes ⟨notchBytes, some uuid16⟩
        = some ([5] ++ notchBytes ++ [1] ++ uuid16)
    ∧ LoginStart.deserializeBytes ([5] ++ notchBytes ++ [1] ++ uuid16)
        = some (⟨notchBytes, some uuid16⟩, []) :=
  ⟨rfl, rfl⟩

/-- C1 (amended): round-trip for the cited packet kinds.  For `LoginStart`,
`deserialize(serialize(v)) == v` for every value whose username fits the UTF
limit and whose uuid, when present, is 16 bytes.  For `DeleteMessage` the
same holds exactly for the values whose signature is present (256 bytes) iff
`message_id == 0` — the code writes the signature whenever it is present but
reads it only when the id is zero, so the unrestricted claim fails (see the
counterexample).  In both cases `serialize(deserialize(b)) == b` for every
byte string `b` that is the serialization of such a value. -/
theorem C1_round_trip :
    (∀ p : LoginStart, p.username.length ≤ 32767 →
      (∀ u, p.uuid = some u → u.length = 16) →
      ∃ b, p.serializeBytes = some b ∧ LoginStart.deserializeBytes b = some (p, []))
    ∧ (∀ p : DeleteMessage, p.message_id < 2 ^ 32 →
        (if p.message_id = 0 then ∃ s, p.signature = some s ∧ s.length = 256
         else p.signature = none) →
        DeleteMessage.deserializeBytes p.serializeBytes = some (p, []))
    ∧ (∀ b : Bytes,
        (∃ p : LoginStart, p.username.length ≤ 32767 ∧
          (∀ u, p.uuid = some u → u.length = 16) ∧ p.serializeBytes = some b) →
        ∃ p : LoginStart, LoginStart.deserializeBytes b = some (p, [])
          ∧ p.serializeBytes = some b)
    ∧ (∀ b : Bytes,
        (∃ p : DeleteMessage, p.message_id < 2 ^ 32 ∧
          (if p.message_id = 0 then ∃ s, p.signature = some s ∧ s.length = 256
           else p.signature = none) ∧ p.serializeBytes = b) →
        ∃ p : DeleteMessage, DeleteMessage.deserializeBytes b = some (p, [])
          ∧ p.serializeBytes = b) := by
  have login : ∀ p : LoginStart, p.username.length ≤ 32767 →
      (∀ u, p.uuid = some u → u.length = 16) →
      ∃ b, p.serializeBytes = some b ∧ LoginStart.deserializeBytes b = some (p, []) := by
    rintro ⟨un, uu⟩ h1 h2
    have h1' : un.length ≤ 32767 := h1
    have hw : write_utf un = some (writeVarint un.length ++ un) := by
      unfold write_utf
      rw [if_neg (by omega)]
    refine ⟨(writeVarint un.length ++ un) ++ write_optional UUID.serializeBytes uu, ?_, ?_⟩
    · simp [LoginStart.serializeBytes, hw]
    · unfold LoginStart.deserializeBytes
      rw [read_utf_write_utf un _ _ hw]
      cases uu with
      | none => simp [write_optional, read_optional, readByte]
      | some u =>
        have hlen : u.length = 16 := h2 u rfl
        have hr : readN 16 u = some (u, []) := readN_exact 16 u hlen
        simp [write_optional, read_optional, readByte, UUID.deserializeBytes,
          UUID.serializeBytes, hr]
  have delete : ∀ p : DeleteMessage, p.message_id < 2 ^ 32 →
      (if p.message_id = 0 then ∃ s, p.signature = some s ∧ s.length = 256
       else p.signature = none) →
      DeleteMessage.deserializeBytes p.serializeBytes = some (p, []) := by
    rintro ⟨mid, sig⟩ hlt hvalid
    by_cases h0 : mid = 0
    · subst h0
      simp only [if_pos rfl] at hvalid
      obtain ⟨s, rfl, hs⟩ := hvalid
      unfold DeleteMessage.serializeBytes DeleteMessage.deserializeBytes
      simp only
      rw [readVarint_writeVarint 0 s (by norm_num)]
      have hr : readN 256 s = some (s, []) := readN_exact 256 s hs
      simp [hr]
    · rw [if_neg h0] at hvalid
      simp only at hvalid
      subst hvalid
      unfold DeleteMessage.serializeBytes DeleteMessage.deserializeBytes
      simp only
      rw [readVarint_writeVarint mid [] hlt]
      simp [h0]
  refine ⟨login, delete, ?_, ?_⟩
  · rintro b ⟨p, h1, h2, hser⟩
    obtain ⟨b', hb', hdes⟩ := login p h1 h2
    rw [hser] at hb'
    injection hb' with hb'
    subst hb'
    exact ⟨p, hdes, hser⟩
  · rintro b ⟨p, h1, h2, hser⟩
    have hdes := delete p h1 h2
    subst hser
    exact ⟨p, hdes, rfl⟩

/-- C1 witness: the round-trip theorem applied at `LoginStart("Notch",
00112233-...)` and at a `DeleteMessage` with id 0 and a 256-byte signature. -/
theorem C1_round_trip_witness :
    (∃ b, LoginStart.serializeBytes ⟨notchBytes, some uuid16⟩ = some b
      ∧ LoginStart.deserializeBytes b = some (⟨notchBytes, some uuid16⟩, []))
    ∧ DeleteMessage.deserializeBytes
        (DeleteMessage.serializeBytes ⟨0, some (List.replicate 256 7)⟩)
        = some (⟨0, some (List.replicate 256 7)⟩, []) :=
  ⟨C1_round_trip.1 ⟨notchBytes, some uuid16⟩ (by decide)
      (fun u h => by injection h with h'; rw [← h']; decide),
    C1_round_trip.2.1 ⟨0, some (List.replicate 256 7)⟩ (by norm_num)
      ⟨List.replicate 256 7, rfl, List.length_replicate 256 7⟩⟩

/-- C1 counterexample: `DeleteMessage(message_id=1, signature=256 zero
bytes)` is a constructible, validation-passing value, yet deserializing its
serialization drops the signature: the result is
`DeleteMessage(message_id=1, signature=None)` with the 256 signature bytes
left unconsumed, which differs from the original value. -/
theorem C1_delete_message_cex :
    DeleteMessage.validate ⟨1, some (List.replicate 256 0)⟩ = .ok ()
    ∧ DeleteMessage.deserializeBytes
        (DeleteMessage.serializeBytes ⟨1, some (List.replicate 256 0)⟩)
        = some (⟨1, none⟩, List.replicate 256 0)
    ∧ (⟨1, none⟩ : DeleteMessage) ≠ ⟨1, some (List.replicate 256 0)⟩ :=
  ⟨rfl, rfl, by decide⟩

/- ## AddResourcePack (`mcproto/packets/configuration/configuration.py`) -/

/-- From `AddResourcePack`: uuid, url, optional 40-char SHA-1 hex hash,
forced flag, optional prompt text component.  Strings are carried as their
UTF-8 bytes; the prompt component as its NBT form. -/
structure AddResourcePack where
  uuid : UUID
  url : Bytes
  hash_sha1 : Option Bytes
  forced : Bool
  prompt_message : Option NBTag

/-- The byte values of the characters `"0123456789abcdefABCDEF"`, in the
order the source writes them. -/
def hexDigits : Bytes :=
  [48, 49, 50, 51, 52, 53, 54, 55, 56, 57,
   97, 98, 99, 100, 101, 102,
   65, 66, 67, 68, 69, 70]

/-- From `AddResourcePack.validate`: raise iff the hash is truthy (present
and non-empty) AND not all hex AND its length differs from 40 — the three
tests are combined with `and` in the source. -/
def AddResourcePack.validate (p : AddResourcePack) : Except String Unit :=
  match p.hash_sha1 with
  | none => .ok ()
  | some h =>
    if h ≠ [] ∧ ¬(∀ c ∈ h, c ∈ hexDigits) ∧ h.length ≠ 40 then
      .error "Hash SHA-1 must be a 40 character hexadecimal string."
    else .ok ()

/-- From `AddResourcePack.serialize_to`: uuid, url, then
`hash_sha1 if hash_sha1 else ""` (so both `None` and the empty string write
an empty UTF string), the forced byte, and the optional prompt. -/
def AddResourcePack.serializeBytes (p : AddResourcePack) : Option Bytes := do
  let url ← write_utf p.url
  let h ← write_utf (match p.hash_sha1 with | some h => h | none => [])
  some (UUID.serializeBytes p.uuid ++ url ++ h
    ++ [if p.forced then 1 else 0]
    ++ write_optional TextComponent.serializeBytes p.prompt_message)

/-- From `AddResourcePack._deserialize`: read uuid, url, hash (an empty hash
string becomes `None`), the forced byte (`bool` of it), and the optional
prompt component. -/
def AddResourcePack.deserializeBytes (bs : Bytes) :
    Option (AddResourcePack × Bytes) := do
  let (uuid, r) ← UUID.deserializeBytes bs
  let (url, r₁) ← read_utf r
  let (h, r₂) ← read_utf r₁
  let hash := if h = [] then none else some h
  let (fb, r₃) ← readByte r₂
  let (pm, r₄) ← read_optional TextComponent.deserializeBytes r₃
  some (⟨uuid, url, hash, fb ≠ 0, pm⟩, r₄)

/-- A zero uuid used for concrete inputs. -/
def uuidZero : UUID := List.replicate 16 0

/-- C2: the claim demands that `validate()` raise whenever `hash_sha1` is
present and is non-hex OR not 40 characters long, but the source combines
the two tests with `and`: this theorem evaluates the code at two failing
inputs — a 40-character non-hex hash (40 times `'z'`) and a 2-character hex
hash — and shows both pass validation even though each violates the claimed
(and documented) invariant. -/
theorem C2_hash_validation_bug :
    AddResourcePack.validate ⟨uuidZero, [], some (List.replicate 40 122), false, none⟩
        = .ok ()
    ∧ (List.replicate 40 122 : Bytes).length = 40
    ∧ ¬(∀ c ∈ (List.replicate 40 122 : Bytes), c ∈ hexDigits)
    ∧ AddResourcePack.validate ⟨uuidZero, [], some [97, 98], false, none⟩ = .ok ()
    ∧ (∀ c ∈ ([97, 98] : Bytes), c ∈ hexDigits)
    ∧ ([97, 98] : Bytes).length ≠ 40 :=
  ⟨rfl, by decide, by decide, rfl, by decide, by decide⟩

/-- C9: in `AddResourcePack`, an absent hash and an empty hash string write
identical wire bytes (an empty UTF string); deserialization maps an empty
hash string back to `None` on every input it accepts; and the concrete
distinct pair (hash `None` versus hash `""`) both deserialize back to the
`None` form. -/
theorem C9_empty_hash_collapse :
    (∀ (u : UUID) (url : Bytes) (f : Bool) (pm : Option NBTag),
      AddResourcePack.serializeBytes ⟨u, url, none, f, pm⟩
        = AddResourcePack.serializeBytes ⟨u, url, some [], f, pm⟩)
    ∧ (⟨uuidZero, [120], none, false, none⟩ : AddResourcePack).hash_sha1
        ≠ (⟨uuidZero, [120], some [], false, none⟩ : AddResourcePack).hash_sha1
    ∧ AddResourcePack.deserializeBytes (uuidZero ++ [1, 120, 0, 0, 0])
        = some (⟨uuidZero, [120], none, false, none⟩, [])
    ∧ AddResourcePack.serializeBytes ⟨uuidZero, [120], some [], false, none⟩
        = some (uuidZero ++ [1, 120, 0, 0, 0])
    ∧ (∀ (bs : Bytes) (p : AddResourcePack) (rest : Bytes),
        AddResourcePack.deserializeBytes bs = some (p, rest) →
        p.hash_sha1 ≠ some []) := by
  refine ⟨fun u url f pm => rfl, by decide, rfl, rfl, ?_⟩
  intro bs p rest h
  unfold AddResourcePack.deserializeBytes at h
  simp only [Option.bind_eq_bind, Option.bind_eq_some] at h
  obtain ⟨⟨uuid, r⟩, h1, h⟩ := h
  simp only [Option.bind_eq_some] at h
  obtain ⟨⟨url, r₁⟩, h2, h⟩ := h
  simp only [Option.bind_eq_some] at h
  obtain ⟨⟨hs, r₂⟩, h3, h⟩ := h
  simp only [Option.bind_eq_some] at h
  obtain ⟨⟨fb, r₃⟩, h4, h⟩ := h
  simp only [Option.bind_eq_some] at h
  obtain ⟨⟨pm, r₄⟩, h5, h⟩ := h
  injection h with h
  injection h with hp hrest
  subst hp
  by_cases he : hs = [] <;> simp [he]

/-- C9 witness: the universal part of the collapse theorem applied to the
concrete serialized buffer of the hash-`None` packet. -/
theorem C9_empty_hash_collapse_witness :
    (⟨uuidZero, [120], none, false, none⟩ : AddResourcePack).hash_sha1 ≠ some [] :=
  C9_empty_hash_collapse.2.2.2.2 (uuidZero ++ [1, 120, 0, 0, 0])
    ⟨uuidZero, [120], none, false, none⟩ [] C9_empty_hash_collapse.2.2.1

/- ## BossBar (`mcproto/packets/play/play.py`) -/

/-- From `BossBarAction`: the action discriminator. -/
inductive BossBarAction where
  | ADD | REMOVE | UPDATE_HEALTH | UPDATE_TITLE | UPDATE_STYLE | UPDATE_FLAGS
deriving DecidableEq, Repr

/-- Numeric value of a `BossBarAction` (the `IntEnum` value). -/
def BossBarAction.value : BossBarAction → Nat
  | .ADD => 0
  | .REMOVE => 1
  | .UPDATE_HEALTH => 2
  | .UPDATE_TITLE => 3
  | .UPDATE_STYLE => 4
  | .UPDATE_FLAGS => 5

/-- From `BossBarColor`: the seven colors (`IntEnum` values 0-6). -/
inductive BossBarColor where
  | PINK | BLUE | RED | GREEN | YELLOW | PURPLE | WHITE
deriving DecidableEq, Repr

/-- Numeric value of a `BossBarColor`. -/
def BossBarColor.value : BossBarColor → Nat
  | .PINK => 0
  | .BLUE => 1
  | .RED => 2
  | .GREEN => 3
  | .YELLOW => 4
  | .PURPLE => 5
  | .WHITE => 6

/-- From `BossBarDivisionType`: the five division types (values 0-4). -/
inductive BossBarDivisionType where
  | NONE | SIX_NOTCHES | TEN_NOTCHES | TWELVE_NOTCHES | TWENTY_NOTCHES
deriving DecidableEq, Repr

/-- Numeric value of a `BossBarDivisionType`. -/
def BossBarDivisionType.value : BossBarDivisionType → Nat
  | .NONE => 0
  | .SIX_NOTCHES => 1
  | .TEN_NOTCHES => 2
  | .TWELVE_NOTCHES => 3
  | .TWENTY_NOTCHES => 4

/-- From `BossBar`: uuid, action, and the action-dependent optional fields.
A title component is carried as its NBT form; health as the raw IEEE-754
bit pattern of the 32-bit float (the codec never computes with it). -/
structure BossBar where
  uuid : UUID
  action : BossBarAction
  title : Option NBTag := none
  health : Option Nat := none
  color : Option BossBarColor := none
  division : Option BossBarDivisionType := none
  darken_sky : Option Bool := none
  is_dragon_bar : Option Bool := none
  create_fog : Option Bool := none

/-- From `BossBar.serialize_to`: the flags byte — `None` fields are falsy and
contribute 0, as in the Python conditional expressions. -/
def BossBar.flags (p : BossBar) : Nat :=
  (if p.darken_sky.getD false then 1 else 0)
    + (if p.is_dragon_bar.getD false then 2 else 0)
    + (if p.create_fog.getD false then 4 else 0)

/-- From `BossBar.serialize_to`: uuid, varint action value, then the fields
of the selected action.  `none` models the crash of serializing a missing
required field (the `cast` in the source does not insert a value). -/
def BossBar.serializeBytes (p : BossBar) : Option Bytes :=
  let base := UUID.serializeBytes p.uuid ++ writeVarint p.action.value
  match p.action with
  | .ADD => do
    let t ← p.title
    let h ← p.health
    let c ← p.color
    let d ← p.division
    some (base ++ TextComponent.serializeBytes t ++ natToBytesBE 4 h
      ++ writeVarint c.value ++ writeVarint d.value ++ [p.flags % 256])
  | .REMOVE => some base
  | .UPDATE_HEALTH => do
    let h ← p.health
    some (base ++ natToBytesBE 4 h)
  | .UPDATE_TITLE => do
    let t ← p.title
    some (base ++ TextComponent.serializeBytes t)
  | .UPDATE_STYLE => do
    let c ← p.color
    let d ← p.division
    some (base ++ writeVarint c.value ++ writeVarint d.value)
  | .UPDATE_FLAGS => some (base ++ [p.flags % 256])

/-- From `BossBar.validate`: each action requires its fields, checked in the
source's order with the source's messages. -/
def BossBar.validate (p : BossBar) : Except String Unit :=
  match p.action with
  | .ADD =>
    if p.title.isNone then .error "BossBarAction.ADD requires a title"
    else if p.health.isNone then .error "BossBarAction.ADD requires health"
    else if p.color.isNone then .error "BossBarAction.ADD requires color"
    else if p.division.isNone then .error "BossBarAction.ADD requires division"
    else if p.darken_sky.isNone then .error "BossBarAction.ADD requires darken_sky"
    else if p.is_dragon_bar.isNone then .error "BossBarAction.ADD requires is_dragon_bar"
    else if p.create_fog.isNone then .error "BossBarAction.ADD requires create_fog"
    else .ok ()
  | .REMOVE => .ok ()
  | .UPDATE_HEALTH =>
    if p.health.isNone then .error "BossBarAction.UPDATE_HEALTH requires health"
    else .ok ()
  | .UPDATE_TITLE =>
    if p.title.isNone then .error "BossBarAction.UPDATE_TITLE requires a title"
    else .ok ()
  | .UPDATE_STYLE =>
    if p.color.isNone then .error "BossBarAction.UPDATE_STYLE requires color"
    else if p.division.isNone then .error "BossBarAction.UPDATE_STYLE requires division"
    else .ok ()
  | .UPDATE_FLAGS =>
    if p.darken_sky.isNone then .error "BossBarAction.UPDATE_FLAGS requires darken_sky"
    else if p.is_dragon_bar.isNone then .error "BossBarAction.UPDATE_FLAGS requires is_dragon_bar"
    else if p.create_fog.isNone then .error "BossBarAction.UPDATE_FLAGS requires create_fog"
    else .ok ()

/-- Concrete `BossBar` values used as witnesses. -/
def bossBarAddEmpty : BossBar := { uuid := uuidZero, action := .ADD }

/-- A concrete `UPDATE_HEALTH` bar whose health bits are `0x3F800000`
(the float `1.0`). -/
def bossBarHealthOne : BossBar :=
  { uuid := uuidZero, action := .UPDATE_HEALTH, health := some 0x3F800000 }

/-- C4: every `BossBar` with action `ADD` and no color fails validation with
some error; and every `BossBar` with action `UPDATE_HEALTH` and a health
value passes validation, its serialized payload being exactly the uuid, the
varint action discriminator `2`, and the 4 float bytes of the health — and
nothing else. -/
theorem C4_bossbar_validation :
    (∀ p : BossBar, p.action = .ADD → p.color = none →
      ∃ e, p.validate = .error e)
    ∧ (∀ (p : BossBar) (h : Nat), p.action = .UPDATE_HEALTH → p.health = some h →
        p.validate = .ok ()
        ∧ p.serializeBytes
            = some (UUID.serializeBytes p.uuid ++ writeVarint 2 ++ natToBytesBE 4 h)) := by
  constructor
  · intro p ha hc
    simp only [BossBar.validate, ha]
    by_cases ht : p.title.isNone
    · exact ⟨_, by rw [if_pos ht]⟩
    · by_cases hh : p.health.isNone
      · exact ⟨_, by rw [if_neg ht, if_pos hh]⟩
      · have hc' : p.color.isNone := by rw [hc]; rfl
        exact ⟨_, by rw [if_neg ht, if_neg hh, if_pos hc']⟩
  · intro p h ha hh
    constructor
    · simp [BossBar.validate, ha, hh]
    · simp [BossBar.serializeBytes, ha, hh, BossBarAction.value]

/-- C4 witness: the validation theorem applied at a concrete `ADD` bar with
no optional fields and at a concrete `UPDATE_HEALTH` bar carrying health
bits `0x3F800000` (the float 1.0). -/
theorem C4_bossbar_validation_witness :
    (∃ e, bossBarAddEmpty.validate = .error e)
    ∧ bossBarHealthOne.validate = .ok ()
    ∧ bossBarHealthOne.serializeBytes
        = some (UUID.serializeBytes uuidZero ++ writeVarint 2 ++ natToBytesBE 4 0x3F800000) :=
  ⟨C4_bossbar_validation.1 bossBarAddEmpty rfl rfl,
    (C4_bossbar_validation.2 bossBarHealthOne 0x3F800000 rfl rfl).1,
    (C4_bossbar_validation.2 bossBarHealthOne 0x3F800000 rfl rfl).2⟩

/- ## Respawn (`mcproto/packets/play/clientbound.py`) -/

/-- Modelled from the spec (section 4.1): `write_value(UBYTE, v)` — one
unsigned byte; out-of-range values raise. -/
def write_ubyte (v : Int) : Option Bytes :=
  if 0 ≤ v ∧ v ≤ 255 then some [v.toNat] else none

/-- Modelled from the spec (section 4.1): `write_value(BYTE, v)` — one signed
byte (two's complement); out-of-range values raise. -/
def write_byte (v : Int) : Option Bytes :=
  if -128 ≤ v ∧ v ≤ 127 then some [toTwos 8 v] else none

/-- Modelled from the spec (section 4.1): `write_value(LONG, v)` — 8 signed
big-endian bytes (two's complement); out-of-range values raise. -/
def write_long (v : Int) : Option Bytes :=
  if -(2 ^ 63) ≤ v ∧ v < 2 ^ 63 then some (natToBytesBE 8 (toTwos 64 v)) else none

/-- Modelled from the spec (section 3): an `Identifier` `namespace:path`,
serialized as the UTF string `namespace ++ ":" ++ path`. -/
structure Identifier where
  ns : Bytes
  path : Bytes
deriving DecidableEq, Repr

/-- Identifier wire form: `write_utf("ns:path")` (58 is `':'`). -/
def Identifier.serializeBytes (i : Identifier) : Option Bytes :=
  write_utf (i.ns ++ [58] ++ i.path)

/-- Modelled from the spec (section 3): a block `Position` of three signed
coordinates. -/
structure Position where
  x : Int
  y : Int
  z : Int
deriving DecidableEq, Repr

/-- Modelled from the spec (section 3): the packed 64-bit word
`(x & 0x3FFFFFF) << 38 | (z & 0x3FFFFFF) << 12 | (y & 0xFFF)` (the three bit
fields are disjoint, so the ors are sums). -/
def Position.pack (p : Position) : Nat :=
  toTwos 26 p.x * 2 ^ 38 + toTwos 26 p.z * 2 ^ 12 + toTwos 12 p.y

/-- Position wire form: the packed word as 8 big-endian bytes. -/
def Position.serializeBytes (p : Position) : Bytes := natToBytesBE 8 p.pack

/-- From `Respawn` (`mcproto/packets/play/clientbound.py`): the respawn
packet's fields.  `dimension_type` and `portal_cooldown` are varints carried
as their unsigned wire values. -/
structure Respawn where
  dimension_type : Nat
  dimension_name : Identifier
  hashed_seed : Int
  game_mode : Int
  previous_game_mode : Int
  is_debug : Bool
  is_flat : Bool
  death_dimension_name : Option Identifier
  death_location : Option Position
  portal_cooldown : Nat
  data_kept : Int

/-- From `Respawn.validate`: range checks on `game_mode`,
`previous_game_mode` and `data_kept`, then the both-or-neither check on the
death fields, in the source's order with the source's messages. -/
def Respawn.validate (p : Respawn) : Except String Unit :=
  if ¬(0 ≤ p.game_mode ∧ p.game_mode ≤ 3) then
    .error "Game mode must be between 0 and 3."
  else if ¬(-1 ≤ p.previous_game_mode ∧ p.previous_game_mode ≤ 3) then
    .error "Previous game mode must be between -1 and 3."
  else if ¬(0 ≤ p.data_kept ∧ p.data_kept ≤ 3) then
    .error "Data kept must be between 0 and 3, only mask 0x01 and 0x02 are allowed."
  else if p.death_dimension_name.isNone ≠ p.death_location.isNone then
    .error "Death dimension name and death location should be both set or both unset."
  else .ok ()

/-- From `Respawn.serialize_to`: the field writes in source order; the
death-location pair is written only when `death_dimension_name` is present
(`none` models the crash of serializing an absent `death_location` after the
no-op `cast`). -/
def Respawn.serializeBytes (p : Respawn) : Option Bytes := do
  let dn ← p.dimension_name.serializeBytes
  let hs ← write_long p.hashed_seed
  let gm ← write_ubyte p.game_mode
  let pgm ← write_byte p.previous_game_mode
  let deathPart ←
    match p.death_dimension_name with
    | none => some ([] : Bytes)
    | some d => do
      let db ← d.serializeBytes
      let loc ← p.death_location
      some (db ++ loc.serializeBytes)
  let dk ← write_byte p.data_kept
  some (writeVarint p.dimension_type ++ dn ++ hs ++ gm ++ pgm
    ++ [if p.is_debug then 1 else 0] ++ [if p.is_flat then 1 else 0]
    ++ [if p.death_dimension_name.isSome then 1 else 0]
    ++ deathPart ++ writeVarint p.portal_cooldown ++ dk)

/-- Modelled from the spec (sections 4.4 and 7): sending a packet validates
first and raises `ValidationFailed` before any bytes are emitted, so a send
of an invalid packet produces no bytes. -/
def Respawn.send (p : Respawn) : Option Bytes :=
  match p.validate with
  | .error _ => none
  | .ok () => p.serializeBytes

/-- The identifier `minecraft:overworld`. -/
def overworldId : Identifier :=
  ⟨[109, 105, 110, 101, 99, 114, 97, 102, 116],
   [111, 118, 101, 114, 119, 111, 114, 108, 100]⟩

/-- A `Respawn` with an out-of-range game mode and no death fields. -/
def respawnBadGameMode : Respawn :=
  { dimension_type := 0, dimension_name := overworldId, hashed_seed := 0,
    game_mode := 5, previous_game_mode := 0, is_debug := false,
    is_flat := false, death_dimension_name := none, death_location := none,
    portal_cooldown := 0, data_kept := 0 }

/-- A `Respawn` with exactly one of the two death fields set. -/
def respawnHalfDeath : Respawn :=
  { dimension_type := 0, dimension_name := overworldId, hashed_seed := 0,
    game_mode := 0, previous_game_mode := 0, is_debug := false,
    is_flat := false, death_dimension_name := some overworldId,
    death_location := none, portal_cooldown := 0, data_kept := 0 }

/-- C5 (amended): `Respawn.validate` succeeds iff `game_mode ∈ [0, 3]`,
`previous_game_mode ∈ [-1, 3]`, `data_kept ∈ [0, 3]` AND the death fields
are both present or both absent (the claim's "iff" omitted the three range
checks); and whenever exactly one death field is set, validation fails and a
send emits no bytes. -/
theorem C5_respawn_validate :
    (∀ p : Respawn, p.validate = .ok () ↔
      ((0 ≤ p.game_mode ∧ p.game_mode ≤ 3)
        ∧ (-1 ≤ p.previous_game_mode ∧ p.previous_game_mode ≤ 3)
        ∧ (0 ≤ p.data_kept ∧ p.data_kept ≤ 3)
        ∧ p.death_dimension_name.isNone = p.death_location.isNone))
    ∧ (∀ p : Respawn, p.death_dimension_name.isNone ≠ p.death_location.isNone →
        p.validate ≠ .ok () ∧ p.send = none) := by
  have main : ∀ p : Respawn, p.validate = .ok () ↔
      ((0 ≤ p.game_mode ∧ p.game_mode ≤ 3)
        ∧ (-1 ≤ p.previous_game_mode ∧ p.previous_game_mode ≤ 3)
        ∧ (0 ≤ p.data_kept ∧ p.data_kept ≤ 3)
        ∧ p.death_dimension_name.isNone = p.death_location.isNone) := by
    intro p
    unfold Respawn.validate
    split_ifs with h1 h2 h3 h4 <;>
      constructor <;> intro h <;> first
        | (exact absurd rfl (by tauto))
        | tauto
  refine ⟨main, fun p hne => ⟨?_, ?_⟩⟩
  · intro hok
    exact hne ((main p).mp hok).2.2.2
  · unfold Respawn.send
    cases hv : p.validate with
    | error e => rfl
    | ok u =>
      cases u
      exact absurd ((main p).mp hv).2.2.2 hne

/-- C5 witness: the theorem applied at a concrete `Respawn` whose
`death_dimension_name` is set but whose `death_location` is not. -/
theorem C5_respawn_validate_witness :
    respawnHalfDeath.validate ≠ .ok () ∧ respawnHalfDeath.send = none :=
  C5_respawn_validate.2 respawnHalfDeath (by decide)

/-- C5 counterexample: a `Respawn` with `game_mode = 5` and both death
fields absent satisfies the claim's both-or-neither condition yet fails
validation (with the game-mode error), so "validate succeeds iff the death
fields are both present or both absent" is false as stated. -/
theorem C5_respawn_cex :
    respawnBadGameMode.death_dimension_name.isNone
        = respawnBadGameMode.death_location.isNone
    ∧ respawnBadGameMode.validate = .error "Game mode must be between 0 and 3."
    ∧ respawnBadGameMode.validate ≠ .ok () :=
  ⟨rfl, rfl, fun h => by
    have h0 : respawnBadGameMode.validate
        = Except.error "Game mode must be between 0 and 3." := rfl
    rw [h0] at h
    exact Except.noConfusion h⟩

/- ## PlayerInfoUpdate (`mcproto/packets/play/clientbound.py`) -/

/-- From `PlayerInfoUpdate._PlayerInfoAction`: a sub-action is identified by
its `ACTION_MASK`; its own payload bytes are opaque at this level (each
concrete action serializes itself independently). -/
structure PlayerInfoAction where
  mask : Nat
  payload : Bytes
deriving DecidableEq, Repr

/-- From `PlayerInfoUpdate.ACTIONS`: the masks of the six registered
sub-action classes (AddPlayer, InitializeChat, UpdateGamemode, UpdateListed,
UpdateLatency, UpdateDisplayName), in registration order — already sorted,
so `sorted(action_mask_order)` is this same list. -/
def ACTION_MASKS : List Nat := [0x1, 0x2, 0x4, 0x8, 0x10, 0x20]

/-- From `PlayerInfoUpdate`: the insertion-ordered `player_actions` dict. -/
structure PlayerInfoUpdate where
  player_actions : List (UUID × List PlayerInfoAction)
deriving DecidableEq, Repr

/-- From `PlayerInfoUpdate.validate`: an empty dict passes; else the FIRST
player's mask list must equal `sorted(action_mask_order)` — the sorted masks
of ALL six action classes — and each player's list is compared to the first
via `zip`, which stops at the shorter list. -/
def PlayerInfoUpdate.validate (p : PlayerInfoUpdate) : Except String Unit :=
  match p.player_actions with
  | [] => .ok ()
  | (_, acts) :: _ =>
    if acts.map PlayerInfoAction.mask ≠ ACTION_MASKS then
      .error "Actions are not in the right order."
    else if p.player_actions.any
        (fun pa => (pa.2.zip acts).any (fun q => q.1.mask != q.2.mask)) then
      .error "All the players should have the same actions."
    else .ok ()

/-- From `PlayerInfoUpdate.serialize_to`: one signed byte holding the sum of
the FIRST listed player's action masks, a varint player count, then each
player's uuid followed by that player's own action payloads. -/
def PlayerInfoUpdate.serializeBytes (p : PlayerInfoUpdate) : Bytes :=
  match p.player_actions with
  | [] => [0] ++ writeVarint 0
  | (_, acts) :: _ =>
    [(acts.map PlayerInfoAction.mask).sum % 256]
      ++ writeVarint p.player_actions.length
      ++ p.player_actions.flatMap
          (fun pa => UUID.serializeBytes pa.1 ++ pa.2.flatMap PlayerInfoAction.payload)

/-- A second uuid, distinct from `uuidZero`. -/
def uuidOne : UUID := List.replicate 15 0 ++ [1]

/-- One action of each registered class, empty payloads. -/
def allSixActions : List PlayerInfoAction :=
  [⟨0x1, []⟩, ⟨0x2, []⟩, ⟨0x4, []⟩, ⟨0x8, []⟩, ⟨0x10, []⟩, ⟨0x20, []⟩]

/-- A `PlayerInfoUpdate` whose first player carries all six sub-actions but
whose second player carries only the first one. -/
def mismatchedInfoUpdate : PlayerInfoUpdate :=
  ⟨[(uuidZero, allSixActions), (uuidOne, [⟨0x1, []⟩])]⟩

/-- C6: the claim (and the code's own error message) says validation accepts
a non-empty packet only when every listed player carries the same action
masks, but the `zip` in the source truncates at the shorter list: this
theorem evaluates the code at a packet whose second player has only one of
the six actions of the first — validation succeeds even though the mask
lists differ, and serialization stamps the first player's bitmask `0x3F`
over both players. -/
theorem C6_player_info_zip_bug :
    mismatchedInfoUpdate.validate = .ok ()
    ∧ (mismatchedInfoUpdate.player_actions.map
        (fun pa => pa.2.map PlayerInfoAction.mask))
        = [[0x1, 0x2, 0x4, 0x8, 0x10, 0x20], [0x1]]
    ∧ ([0x1, 0x2, 0x4, 0x8, 0x10, 0x20] : List Nat) ≠ [0x1]
    ∧ mismatchedInfoUpdate.serializeBytes
        = [0x3F] ++ writeVarint 2 ++ uuidZero ++ uuidOne :=
  ⟨rfl, rfl, by decide, rfl⟩

/- ## FixedBitset (`mcproto/types/bitset.py`) -/

/-- From `FixedBitset`: a fixed-size bitset — `nbits` is the class-level
`__BIT_COUNT`, `data` the underlying bytes.  The attrs validator requires
`data.length = ceil(nbits / 8)`; theorems carry that as a hypothesis. -/
structure FixedBitset where
  nbits : Nat
  data : Bytes
deriving DecidableEq, Repr

/-- From `FixedBitset.serialize_to`: write the raw data bytes. -/
def FixedBitset.serializeBytes (b : FixedBitset) : Bytes := b.data

/-- From `FixedBitset.deserialize`: read exactly `ceil(nbits / 8)` bytes. -/
def FixedBitset.deserializeBytes (nbits : Nat) (bs : Bytes) :
    Option (FixedBitset × Bytes) := do
  let (d, r) ← readN ((nbits + 7) / 8) bs
  some (⟨nbits, d⟩, r)

/-- From `FixedBitset.__getitem__`: bit `index % 8` of byte `index // 8`. -/
def FixedBitset.getItem (b : FixedBitset) (index : Nat) : Bool :=
  (b.data.getD (index / 8) 0).testBit (index % 8)

/-- From `FixedBitset.__setitem__`: or the byte with `1 << (index % 8)`, or
and it with the complement (`& ~(1 << bit)` on byte-range values equals
`&&& (255 ^^^ (1 <<< bit))`). -/
def FixedBitset.setItem (b : FixedBitset) (index : Nat) (value : Bool) : FixedBitset :=
  let old := b.data.getD (index / 8) 0
  let new := if value then old ||| (1 <<< (index % 8))
             else old &&& (255 ^^^ (1 <<< (index % 8)))
  ⟨b.nbits, b.data.set (index / 8) new⟩

theorem fixedBitset_index_lt (nbits i : Nat) (h : i < nbits) :
    i / 8 < (nbits + 7) / 8 := by omega

/-- C8: for a `FixedBitset` of size `N` (with the validator's data-length
invariant), serialization emits exactly `ceil(N/8)` bytes; deserialization
consumes exactly `ceil(N/8)` bytes from any sufficiently long buffer,
returning them as the data and leaving the rest; and for every index
`i < N`, bit `i` lives in serialized byte `i / 8` at bit position `i % 8`
from the least-significant end: `__getitem__` reads exactly that bit of the
wire bytes, and after `__setitem__(i, v)` on a byte-valued bitset that bit
of the wire bytes equals `v`. -/
theorem C8_fixed_bitset_layout :
    ∀ b : FixedBitset, b.data.length = (b.nbits + 7) / 8 →
      (b.serializeBytes.length = (b.nbits + 7) / 8)
      ∧ (∀ bs : Bytes, (b.nbits + 7) / 8 ≤ bs.length →
          FixedBitset.deserializeBytes b.nbits bs
            = some (⟨b.nbits, bs.take ((b.nbits + 7) / 8)⟩, bs.drop ((b.nbits + 7) / 8)))
      ∧ (∀ i, i < b.nbits →
          b.getItem i = (b.serializeBytes.getD (i / 8) 0).testBit (i % 8))
      ∧ (∀ i v, i < b.nbits → (∀ c ∈ b.data, c < 256) →
          ((b.setItem i v).serializeBytes.getD (i / 8) 0).testBit (i % 8) = v
          ∧ (b.setItem i v).getItem i = v) := by
  intro b hlen
  refine ⟨hlen, ?_, fun i _ => rfl, ?_⟩
  · intro bs hbs
    unfold FixedBitset.deserializeBytes readN
    rw [if_pos hbs]
    rfl
  · intro i v hi hbytes
    have hidx : i / 8 < b.data.length := by
      rw [hlen]; exact fixedBitset_index_lt b.nbits i hi
    have hget : (b.setItem i v).data.getD (i / 8) 0
        = (if v then b.data.getD (i / 8) 0 ||| (1 <<< (i % 8))
           else b.data.getD (i / 8) 0 &&& (255 ^^^ (1 <<< (i % 8)))) := by
      unfold FixedBitset.setItem
      simp only [List.getD, List.get?_eq_getElem?]
      rw [List.getElem?_set_eq_of_lt _ hidx]
      simp
    have hbit : ((if v then b.data.getD (i / 8) 0 ||| (1 <<< (i % 8))
        else b.data.getD (i / 8) 0 &&& (255 ^^^ (1 <<< (i % 8))))).testBit (i % 8) = v := by
      have hm8 : i % 8 < 8 := Nat.mod_lt _ (by norm_num)
      cases v with
      | true =>
        rw [if_pos rfl]
        rw [Nat.testBit_or, Nat.shiftLeft_eq, one_mul, Nat.testBit_two_pow_self]
        simp
      | false =>
        rw [if_neg (by simp)]
        rw [Nat.testBit_and, Nat.testBit_xor, Nat.shiftLeft_eq, one_mul,
          Nat.testBit_two_pow_self]
        have h255 : (255 : Nat).testBit (i % 8) = true := by
          have h8 : (255 : Nat) = 2 ^ 8 - 1 := by norm_num
          rw [h8, Nat.testBit_two_pow_sub_one]
          simp [hm8]
        rw [h255]
        simp
    constructor
    · show ((b.setItem i v).data.getD (i / 8) 0).testBit (i % 8) = v
      rw [hget]
      exact hbit
    · unfold FixedBitset.getItem
      rw [hget]
      exact hbit

/-- C8 witness: the layout theorem applied at the 9-bit bitset with bytes
`[0x05, 0x01]`: serialized length 2, deserialization splitting a 3-byte
buffer after 2 bytes, bit 2 read from byte 0, and bit 8 set to true. -/
theorem C8_fixed_bitset_layout_witness :
    (FixedBitset.serializeBytes ⟨9, [5, 1]⟩).length = (9 + 7) / 8
    ∧ FixedBitset.deserializeBytes 9 [5, 1, 7]
        = some (⟨9, [5, 1]⟩, [7])
    ∧ FixedBitset.getItem ⟨9, [5, 1]⟩ 2
        = ((FixedBitset.serializeBytes ⟨9, [5, 1]⟩).getD 0 0).testBit 2
    ∧ (((FixedBitset.setItem ⟨9, [5, 1]⟩ 8 true).serializeBytes.getD 1 0).testBit 0
          = true
        ∧ (FixedBitset.setItem ⟨9, [5, 1]⟩ 8 true).getItem 8 = true) := by
  have h := C8_fixed_bitset_layout ⟨9, [5, 1]⟩ (by decide)
  exact ⟨h.1, by
      have := h.2.1 [5, 1, 7] (by decide)
      simpa using this,
    h.2.2.1 2 (by decide),
    h.2.2.2 8 true (by decide) (by decide)⟩

/- ## Bitset (`mcproto/types/bitset.py`) -/

/-- From `Bitset`: a varint-prefixed array of 64-bit words; `size` is the
declared word count (a Python int, possibly non-positive), `data` the signed
word values. -/
structure Bitset where
  size : Int
  data : List Int
deriving DecidableEq, Repr

/-- From the attrs validators on `Bitset`: `validators.gt(0)` on `size` and
the length check on `data`; `none` models the raised `ValueError`. -/
def Bitset.build (size : Int) (data : List Int) : Option Bitset :=
  if size ≤ 0 then none
  else if data.length ≠ size.toNat then none
  else some ⟨size, data⟩

/-- From `Bitset.deserialize`: read a varint word count (a signed value on
the Python side), read that many 8-byte big-endian signed words
(`range(size)` is empty for non-positive sizes), then construct — which runs
the validators. -/
def Bitset.deserializeBytes (bs : Bytes) : Option (Bitset × Bytes) := do
  let (u, r) ← readVarint bs
  let s := toSigned 32 u
  let (ws, r') ← readFixedInts 8 s.toNat r
  let b ← Bitset.build s ws
  some (b, r')

/-- C10: a variable-length `Bitset` can never be empty — the `gt(0)`
validator rejects every non-positive size at construction, and
`Bitset.deserialize` therefore fails on every buffer whose varint word-count
prefix decodes to 0, even though the wire format syntactically admits a
zero-length word array. -/
theorem C10_bitset_nonempty :
    (∀ (s : Int) (data : List Int), s ≤ 0 → Bitset.build s data = none)
    ∧ (∀ bs rest : Bytes, readVarint bs = some (0, rest) →
        Bitset.deserializeBytes bs = none) := by
  constructor
  · intro s data hs
    unfold Bitset.build
    rw [if_pos hs]
  · intro bs rest hv
    unfold Bitset.deserializeBytes
    rw [hv]
    simp [readFixedInts, toSigned, Bitset.build]

/-- C10 witness: the theorem applied to the one-byte buffer `[0x00]`, whose
varint prefix is 0, and to the constructor at size 0. -/
theorem C10_bitset_nonempty_witness :
    Bitset.build 0 [] = none ∧ Bitset.deserializeBytes [0] = none :=
  ⟨C10_bitset_nonempty.1 0 [] (le_refl 0),
    C10_bitset_nonempty.2 [0] [] rfl⟩

end Mcproto
